import Mathlib

/-!
Verification development for `bin/StripChromeSymbols.py`.

The script scans `xperf` symbol-identification output for Chrome modules,
computes symcache target paths, retrieves and strips PDBs through external
tools, temporarily renames local PDBs while the symcache store is built, and
restores and cleans up afterwards.

The embedding below is executable: string scanning and the regular
expressions are implemented directly (a small greedy backtracking matcher
reproduces Python `re.match` semantics for the two concrete patterns used by
the script), and the orchestration in `main` is modelled as a state machine
over an oracle environment `Env` describing the filesystem and the external
tools, producing an ordered log of observable events.
-/

set_option maxRecDepth 20000

namespace StripChromeSymbols

/-- Strip a literal prefix from a character list; `none` if it is not a prefix. -/
def dropLit : List Char → List Char → Option (List Char)
  | [], cs => some cs
  | _ :: _, [] => none
  | l :: ls, c :: cs => if l = c then dropLit ls cs else none

/-- Does `needle` occur somewhere in `hay`?  Models Python `hay.count(needle) > 0`. -/
def occursIn (needle : List Char) : List Char → Bool
  | [] => (dropLit needle []).isSome
  | c :: cs => (dropLit needle (c :: cs)).isSome || occursIn needle cs

/-- `line.count(sub) > 0` on strings. -/
def strContains (line sub : String) : Bool := occursIn sub.data line.data

/-- Tokens of the two regular expressions used by the script: literal pieces and
`.*` wildcards.  `starAt n` is internal state of the matcher: a wildcard that is
currently trying to consume `n` characters. -/
inductive Tok where
  | lit (s : List Char)
  | star
  | starAt (n : Nat)
deriving DecidableEq, Repr

/-- Fuel-indexed matcher for a token sequence against a character list, with
Python `re.match` semantics: anchored at the start, trailing characters
allowed, each `.*` greedy (longest first, with backtracking) and never
consuming a newline.  Returns the list of substrings consumed by the
wildcards, in order.  The fuel only bounds the recursion depth; `mtFuel`
below is always sufficient. -/
def mtF : Nat → List Tok → List Char → Option (List (List Char))
  | 0, _, _ => none
  | _ + 1, [], _ => some []
  | fuel + 1, .lit s :: ts, cs =>
    match dropLit s cs with
    | some rest => mtF fuel ts rest
    | none => none
  | fuel + 1, .star :: ts, cs =>
    mtF fuel (.starAt (cs.takeWhile (fun c => c != '\n')).length :: ts) cs
  | fuel + 1, .starAt 0 :: ts, cs =>
    match mtF fuel ts cs with
    | some segs => some ([] :: segs)
    | none => none
  | fuel + 1, .starAt (n + 1) :: ts, cs =>
    match mtF fuel ts (cs.drop (n + 1)) with
    | some segs => some (cs.take (n + 1) :: segs)
    | none => mtF fuel (.starAt n :: ts) cs

/-- A recursion-depth bound that is always sufficient for `mtF`: every call
chain pops a token after at most `cs.length + 2` steps. -/
def mtFuel (ts : List Tok) (cs : List Char) : Nat :=
  (ts.length + 1) * (cs.length + 2)

def matchToks (ts : List Tok) (cs : List Char) : Option (List (List Char)) :=
  mtF (mtFuel ts cs) ts cs

/-- Token form of `pdb_re`, the pattern
`"\[RSDS\] PdbSig: {(.*-.*-.*-.*-.*)}; Age: (.*); Pdb: (.*)"`
(the first group is split around its four literal hyphens). -/
def pdbToks : List Tok :=
  [.lit ("\"[RSDS] PdbSig: \x7b".data), .star, .lit ("-".data), .star,
   .lit ("-".data), .star, .lit ("-".data), .star, .lit ("-".data), .star,
   .lit ("\x7d; Age: ".data), .star, .lit ("; Pdb: ".data), .star,
   .lit ("\"".data)]

/-- `pdb_re.match(line)`: on success, the three captured groups
`(guid-with-hyphens, age-text, pdb-path)`. -/
def pdbReMatch (line : String) : Option (String × String × String) :=
  match matchToks pdbToks line.data with
  | some [a, b, c, d, e, g2, g3] =>
    some (String.mk (a ++ '-' :: b ++ '-' :: c ++ '-' :: d ++ '-' :: e),
          String.mk g2, String.mk g3)
  | _ => none

/-- Token form of `pdb_cached_re`, the pattern `Found .*file - placed it in (.*)`. -/
def pdbCachedToks : List Tok :=
  [.lit ("Found ".data), .star, .lit ("file - placed it in ".data), .star]

/-- `pdb_cached_re.match(line)`: on success, the captured path group. -/
def pdbCachedMatch (line : String) : Option String :=
  match matchToks pdbCachedToks line.data with
  | some [_, g] => some (String.mk g)
  | _ => none

/-- Python whitespace for `str.strip()`. -/
def isPySpace (c : Char) : Bool :=
  c = ' ' || c = '\t' || c = '\n' || c = '\r' || c = '\x0b' || c = '\x0c'

/-- Python `str.strip()`. -/
def pyStrip (s : String) : String :=
  String.mk (((s.data.dropWhile isPySpace).reverse.dropWhile isPySpace).reverse)

/-- Digits of a decimal numeral; `none` when empty or a non-digit appears. -/
def digitsToNat : List Char → Option Nat
  | [] => none
  | cs => cs.foldl (fun acc c =>
      match acc with
      | none => none
      | some n => if c.isDigit then some (n * 10 + (c.toNat - 48)) else none)
      (some 0)

/-- Python `int(s)`: optional surrounding whitespace, optional sign, at least
one decimal digit; `none` models the `ValueError` raised otherwise. -/
def pyInt (s : String) : Option Int :=
  match (pyStrip s).data with
  | '+' :: rest => (digitsToNat rest).map Int.ofNat
  | '-' :: rest => (digitsToNat rest).map (fun n => -(Int.ofNat n))
  | rest => (digitsToNat rest).map Int.ofNat

/-- Lowercase hexadecimal digits, as produced by Python `"%x"`. -/
def hexDigitChar (n : Nat) : Char := Nat.digitChar n

/-- Accumulate the hex digits of `n`; the fuel is always sufficient when it is
at least `n` since `n / 16 < n` for positive `n`. -/
def natHexLoop : Nat → Nat → List Char → List Char
  | 0, _, acc => acc
  | fuel + 1, n, acc =>
    if n = 0 then acc
    else natHexLoop fuel (n / 16) (hexDigitChar (n % 16) :: acc)

/-- Python `"%x" % n` for a non-negative `n`: lowercase, no `0x` prefix. -/
def natToHex (n : Nat) : String :=
  if n = 0 then "0" else String.mk (natHexLoop (n + 1) n [])

/-- Python `"%x" % i` for an arbitrary int (negative values print as `-` then
the magnitude in hex). -/
def pyHex (i : Int) : String :=
  if i < 0 then "-" ++ natToHex i.natAbs else natToHex i.toNat

/-- Python `str(i)` for an int. -/
def pyIntStr (i : Int) : String := toString i

/-- `guid.replace("-", "")`. -/
def stripHyphens (g : String) : String :=
  String.mk (g.data.filter (fun c => c != '-'))

/-- `os.path.split(p)[1]` for the Windows paths handled by the script: the
component after the last `\` or `/`. -/
def winBasename (p : String) : String :=
  String.mk ((p.data.reverse.takeWhile (fun c => c != '\\' && c != '/')).reverse)

/-- `os.path.join(dir, name)` for a directory not ending in a separator (the
`tempfile.mkdtemp` results joined by the script never do). -/
def winJoin (dir name : String) : String := dir ++ "\\" ++ name

/-- Line 166: `symcache_file = r"c:\symcache\%s-%s%xv2.symcache" % (dllMatch, guid, age)`
(`guid` already has its hyphens removed at this point). -/
def symcacheFile (dllMatch guid : String) (age : Int) : String :=
  "c:\\symcache\\" ++ dllMatch ++ "-" ++ guid ++ pyHex age ++ "v2.symcache"

/-- The fixed module list of line 156. -/
def dllList : List String :=
  ["chrome.exe", "chrome.dll", "blink_web.dll", "content.dll",
   "chrome_elf.dll", "chrome_watcher.dll", "libEGL.dll", "libGLESv2.dll"]

/-- Lines 150-158: the name to use when generating the .symcache file, or
`none` if the line references no recognized module.  A reference to
`chrome_child.dll` (matched as a bare substring) maps to `chrome.dll`; the
listed modules (matched as path suffix `\name`) map to themselves, a later
list entry overriding an earlier match. -/
def dllMatchOf (line : String) : Option String :=
  let base := if strContains line "chrome_child.dll" then some "chrome.dll" else none
  dllList.foldl
    (fun acc dllName => if strContains line ("\\" ++ dllName) then some dllName else acc)
    base

/-- One record extracted from a matched trace line (lines 162-165): the cache
name, the hyphen-stripped guid, the integer age and the PDB path. -/
structure SymbolRecord where
  dllMatch : String
  guid : String
  age : Int
  path : String
deriving DecidableEq, Repr

/-- Result of scanning one line of trace output. -/
inductive ScanResult where
  /-- No recognized module on the line, or the module matched but `pdb_re` did
  not: the line is skipped. -/
  | noMatch
  /-- Module and pattern both matched and the age parsed. -/
  | record (r : SymbolRecord)
  /-- Module and pattern matched but `int(age)` raises `ValueError`. -/
  | valueError (ageText : String)
deriving DecidableEq, Repr

/-- Lines 150-165: scan one line of the `xperf -dbgid` output. -/
def scanLine (line : String) : ScanResult :=
  match dllMatchOf line with
  | none => .noMatch
  | some dll =>
    match pdbReMatch line with
    | none => .noMatch
    | some (guid, ageText, path) =>
      match pyInt ageText with
      | none => .valueError ageText
      | some age =>
        .record { dllMatch := dll, guid := stripHyphens guid, age := age, path := path }

/-- Is the last character of `s` equal to `c`?  Python `s.endswith(c)` for a
one-character suffix. -/
def lastCharIs (s : String) (c : Char) : Bool :=
  match s.data.reverse with
  | [] => false
  | d :: _ => d = c

/-- Python `s[:-1]`. -/
def dropLastChar (s : String) : String := String.mk s.data.dropLast

/-- Python truthiness of an optional string (`None` and `""` are falsy). -/
def optTruthy : Option String → Bool
  | none => false
  | some s => s != ""

/-- The module-level constant of line 63. -/
def strip_and_translate : Bool := true

/-- The fixed fast-link conversion tool path of line 94. -/
def un_fastlink_tool_path : String :=
  "C:\\Program Files (x86)\\Microsoft Visual Studio 14.0\\VC\\bin\\amd64\\mspdbcmf.exe"

/-- Observable actions of a run, in program order: console prints, external
tool invocations, filesystem mutations, and process termination.  `exit n`
is a deliberate `sys.exit(n)`; `crash` is an uncaught exception. -/
inductive Event where
  | print (msg : String)
  | copy2 (name : String)
  | runTrace (cmd : String)
  | runRetrieve (cmd : String)
  | runCopy (cmd : String)
  | runConvert (cmd : String)
  | removeFile (p : String)
  | renameFile (src dst : String)
  | setEnvVar (value : String)
  | runBuild (cmd : String)
  | rmtree (dir : String)
  | exit (code : Nat)
  | crash
deriving DecidableEq, Repr

/-- How a run terminated before reaching the end of `main`, if it did. -/
inductive TermKind where
  /-- One of the early `sys.exit(0)` calls of lines 66-114. -/
  | earlyExit
  /-- The `sys.exit(0)` of line 220 (stripped PDB missing). -/
  | exited
  /-- An uncaught exception. -/
  | crashed
deriving DecidableEq, Repr

/-- The mutable state of `main`: the accumulator lists of lines 120-137, a
counter naming `mkdtemp` results, an index enumerating the oracle-dependent
external interactions, the event log, and whether the process has terminated. -/
structure LoopState where
  tempdirs : List String := []
  symcache_files : List String := []
  local_symbol_files : List String := []
  found_uncached : Bool := false
  nTemp : Nat := 0
  extCalls : Nat := 0
  events : List Event := []
  terminated : Option TermKind := none
deriving DecidableEq, Repr

/-- The oracle environment: command-line and interpreter facts, the filesystem
as observed by each `os.path.exists` probe, and the behaviour of every
external tool invocation.  Indexed fields are keyed by `LoopState.extCalls`,
the running index of oracle-dependent interactions. -/
structure Env where
  /-- `sys.argv[0]`. -/
  argv0 : String
  /-- `sys.argv[1:]`. -/
  argvTail : List String
  pyMajor : Nat
  pyMinor : Nat
  pyVersionStr : String
  /-- `os.environ.get("_NT_SYMBOL_PATH", "")`. -/
  ntSymbolPath : String
  /-- line 102: does the third-party support file already exist locally? -/
  cwdExists : String → Bool
  /-- line 106: does `shutil.copy2` raise for this file? -/
  copy2Fails : String → Bool
  /-- the resolved `pdbcopy_path` (lines 82-89, tool-discovery plumbing). -/
  pdbcopyPath : String
  /-- the resolved `retrieve_path` (line 82). -/
  retrievePath : String
  /-- line 108: `os.path.exists(pdbcopy_path)`. -/
  pdbcopyExists : Bool
  /-- line 112: `os.path.exists(retrieve_path)`. -/
  retrieveExists : Bool
  /-- line 95: `os.path.exists(un_fastlink_tool)`. -/
  unFastlinkExists : Bool
  /-- does the n-th fallible external call (`check_output`, `os.remove`,
  `os.rename`) raise? -/
  callFails : Nat → Bool
  /-- captured output of the n-th call when it is a `check_output`. -/
  toolOutput : Nat → String
  /-- the lines of the `xperf -dbgid` output (line 147). -/
  traceLines : List String
  /-- the lines read from the n-th call when it is an `os.popen`. -/
  popenLines : Nat → List String
  /-- line 167: `os.path.exists(symcache_file)` before the run. -/
  symcacheExists : String → Bool
  /-- line 186: `os.path.exists(path)` for a locally built PDB. -/
  localPdbExists : String → Bool
  /-- line 191: the n-th `tempfile.mkdtemp()` result. -/
  mkdtempName : Nat → String
  /-- line 218: `os.path.exists(dest_path)` after the copy. -/
  destExists : String → Bool
  /-- line 241: `os.path.exists(temp_name)` before hiding a local PDB. -/
  tempNameExists : String → Bool
  /-- textual form of the exception for the n-th failing call. -/
  excText : Nat → String
  /-- was a `KeyboardInterrupt` raised while the build command ran (line 260)? -/
  interrupted : Bool
  /-- line 273: `os.path.exists(symcache_file)` after the build. -/
  symcacheExistsAfter : String → Bool

/-- Terminate the run with an uncaught exception. -/
def crashSt (st : LoopState) : LoopState :=
  { st with events := st.events ++ [Event.crash], terminated := some .crashed }

/-- Lines 177-183: fold one line of `RetrieveSymbols` output into the current
`pdb_cache_path` (the last matching line wins; a trailing period is stripped). -/
def parseRetrieveLine (acc : Option String) (subline : String) : Option String :=
  match pdbCachedMatch (pyStrip subline) with
  | some p => some (if lastCharIs p '.' then dropLastChar p else p)
  | none => acc

/-- Print the captured output of call `i` if it is nonempty (the
`if output: print("  %s" % output, end="")` lines). -/
def outputPrint (env : Env) (i : Nat) (st : LoopState) : LoopState :=
  if env.toolOutput i = "" then st
  else { st with events := st.events ++ [Event.print ("  " ++ env.toolOutput i)] }

/-- Lines 190-220: copy/strip one resolved PDB into a fresh temp directory,
with the fast-link conversion retry when available, then verify the stripped
file exists, aborting the whole run otherwise. -/
def stripPhase (env : Env) (st : LoopState) (pdb_cache_path : String) : LoopState :=
  let tempdir := env.mkdtempName st.nTemp
  let st := { st with nTemp := st.nTemp + 1, tempdirs := st.tempdirs ++ [tempdir] }
  let dest_path := winJoin tempdir (winBasename pdb_cache_path)
  let copy_command :=
    env.pdbcopyPath ++ " \"" ++ pdb_cache_path ++ "\" \"" ++ dest_path ++ "\" -p"
  let st := { st with events := st.events ++
      [Event.print ("  Copying PDB to " ++ dest_path), Event.print ("  > " ++ copy_command)] }
  let st :=
    if env.unFastlinkExists then
      let i := st.extCalls
      let st := { st with events := st.events ++ [Event.runCopy copy_command], extCalls := i + 1 }
      if env.callFails i then
        let convert_command := un_fastlink_tool_path ++ " \"" ++ pdb_cache_path ++ "\""
        let st := { st with
          events := st.events ++
            [Event.print "Attempting to un-fastlink PDB so that pdbcopy can strip it. This may be slow.",
             Event.print ("  > " ++ convert_command), Event.runConvert convert_command],
          extCalls := i + 2 }
        if env.callFails (i + 1) then crashSt st
        else
          let st := { st with events := st.events ++ [Event.runCopy copy_command], extCalls := i + 3 }
          if env.callFails (i + 2) then crashSt st
          else outputPrint env (i + 2) st
      else outputPrint env i st
    else
      let i := st.extCalls
      let st := { st with events := st.events ++ [Event.runCopy copy_command], extCalls := i + 1 }
      if env.callFails i then crashSt st
      else outputPrint env i st
  if st.terminated.isSome then st
  else if env.destExists dest_path then st
  else
    { st with
      events := st.events ++
        [Event.print ("Aborting symbol generation because stripped PDB \x27" ++ dest_path ++
                 "\x27 does not exist. WPA symbol loading may be slow."), Event.exit 0],
      terminated := some .exited }

/-- Lines 166-224: process one successfully scanned record: cache-hit
short-circuit, retrieval, local fallback, stripping. -/
def processRecord (env : Env) (st : LoopState) (r : SymbolRecord) : LoopState :=
  let filepart := winBasename r.path
  let symcache_file := symcacheFile r.dllMatch r.guid r.age
  if env.symcacheExists symcache_file then st
  else
    let st := { st with
      found_uncached := true,
      events := st.events ++
        [Event.print ("Found uncached reference to " ++ filepart ++ ": " ++ r.guid ++ " - " ++
                 pyIntStr r.age)],
      symcache_files := st.symcache_files ++ [symcache_file] }
    let retrieve_command :=
      env.retrievePath ++ " " ++ r.guid ++ " " ++ pyIntStr r.age ++ " " ++ filepart
    let st := { st with events := st.events ++
        [Event.print ("  > " ++ retrieve_command), Event.runRetrieve retrieve_command] }
    let pdb_cache_path := (env.popenLines st.extCalls).foldl parseRetrieveLine none
    let st := { st with extCalls := st.extCalls + 1 }
    let fallback : Option String × LoopState :=
      if strip_and_translate && !(optTruthy pdb_cache_path) then
        if env.localPdbExists r.path then
          (some r.path, { st with local_symbol_files := st.local_symbol_files ++ [r.path] })
        else (pdb_cache_path, st)
      else (pdb_cache_path, st)
    let st := fallback.2
    match fallback.1 with
    | none => { st with events := st.events ++ [Event.print "  Failed to retrieve symbols."] }
    | some p =>
      if p = "" then { st with events := st.events ++ [Event.print "  Failed to retrieve symbols."] }
      else if strip_and_translate then stripPhase env st p
      else { st with events := st.events ++ [Event.print "   Symbols retrieved."] }

/-- Lines 149-224: process one line of trace output (a no-op once the process
has terminated, since `sys.exit` and exceptions unwind the loop). -/
def processLine (env : Env) (st : LoopState) (line : String) : LoopState :=
  if st.terminated.isSome then st
  else
    match scanLine line with
    | .noMatch => st
    | .valueError _ => crashSt st
    | .record r => processRecord env st r

def runLoop (env : Env) (st : LoopState) (lines : List String) : LoopState :=
  lines.foldl (processLine env) st

/-- The log line printed when hiding a local PDB fails (line 247). -/
def renameFailMsg (env : Env) (a b : String) (idx : Nat) : Event :=
  Event.print ("Hit exception while renaming " ++ a ++ " to " ++ b ++ ". Continuing.\n" ++
          env.excText idx)

/-- Lines 235-250: hide one local PDB by renaming it to `local_pdb + "x"`,
first deleting a pre-existing file at that name; failures are caught, logged
and recorded in the `rename_errors` flag, and only a successful rename is
appended to `renames`.  The accumulator is
`(events, renames, rename_errors, call index)`. -/
def renameStep (env : Env) (acc : List Event × List (String × String) × Bool × Nat)
    (local_pdb : String) : List Event × List (String × String) × Bool × Nat :=
  let (evs, renames, rename_errors, c) := acc
  let temp_name := local_pdb ++ "x"
  let evs := evs ++
    [Event.print ("Renaming " ++ local_pdb ++ " to " ++ temp_name ++
             " to stop unstripped PDBs from being used.")]
  if env.tempNameExists temp_name then
    let evs := evs ++ [Event.removeFile temp_name]
    if env.callFails c then
      (evs ++ [renameFailMsg env local_pdb temp_name c], renames, true, c + 1)
    else
      let evs := evs ++ [Event.renameFile local_pdb temp_name]
      if env.callFails (c + 1) then
        (evs ++ [renameFailMsg env local_pdb temp_name (c + 1)], renames, true, c + 2)
      else (evs, renames ++ [(local_pdb, temp_name)], rename_errors, c + 2)
  else
    let evs := evs ++ [Event.renameFile local_pdb temp_name]
    if env.callFails c then
      (evs ++ [renameFailMsg env local_pdb temp_name c], renames, true, c + 1)
    else (evs, renames ++ [(local_pdb, temp_name)], rename_errors, c + 1)

def renameLoop (env : Env) (c0 : Nat) (pdbs : List String) :
    List Event × List (String × String) × Bool × Nat :=
  pdbs.foldl (renameStep env) ([], [], false, c0)

/-- Lines 265-271: rename one hidden PDB back; a failure is caught and logged
and the loop continues. -/
def restoreStep (env : Env) (acc : List Event × Nat) (p : String × String) :
    List Event × Nat :=
  let evs := acc.1 ++ [Event.renameFile p.2 p.1]
  if env.callFails acc.2 then
    (evs ++ [Event.print ("Hit exception while renaming " ++ p.2 ++ " back. Continuing.\n" ++
                     env.excText acc.2)], acc.2 + 1)
  else (evs, acc.2 + 1)

def restoreLoop (env : Env) (c0 : Nat) (renames : List (String × String)) :
    List Event × Nat :=
  renames.foldl (restoreStep env) ([], c0)

/-- Lines 272-277: check that each targeted symcache file now exists, setting
the error flag for any that does not. -/
def verifyStep (env : Env) (acc : List Event × Bool) (symcache_file : String) :
    List Event × Bool :=
  if env.symcacheExistsAfter symcache_file then
    (acc.1 ++ [Event.print (symcache_file ++ " generated.")], acc.2)
  else
    (acc.1 ++ [Event.print ("Error: " ++ symcache_file ++ " not generated.")], true)

def verifyLoop (env : Env) (files : List String) (error0 : Bool) : List Event × Bool :=
  files.foldl (verifyStep env) ([], error0)

/-- The overall outcome of a run: the full event log, the recorded renames and
the `rename_errors` / `error` flags of lines 232-277, and the final loop
state. -/
structure RunResult where
  events : List Event
  renames : List (String × String)
  rename_errors : Bool
  error : Bool
  st : LoopState
deriving DecidableEq, Repr

/-- Lines 252-264: the build step.  Skipped (with a warning) when any rename
failed; otherwise the build command runs, and a `KeyboardInterrupt` raised
while it does is caught, logged when there is anything to rename back, and
recorded in the returned error flag. -/
def buildStep (env : Env) (tracename : String) (renames : List (String × String))
    (rename_errors : Bool) : List Event × Bool :=
  if rename_errors then
    ([Event.print "Skipping symbol generation due to PDB rename errors. WPA symbol loading may be slow."],
     false)
  else
    let gen_command := "xperf -i \"" ++ tracename ++ "\" -symbols -tle -tti -a symcache -build"
    let evs := [Event.print ("> " ++ gen_command), Event.runBuild gen_command]
    if env.interrupted then
      (evs ++ (if renames.isEmpty then [] else [Event.print "Ctrl+C detected. Renaming PDBs back."]),
       true)
    else (evs, false)

/-- Lines 278-285: retain the stripped PDBs (printing the retry instructions)
when the error flag is set, delete every temp directory otherwise. -/
def cleanupEvents (symbol_path : String) (tempdirs : List String) (error : Bool) :
    List Event :=
  if error then
    [Event.print "Retaining PDBs to allow rerunning xperf command-line.",
     Event.print "If re-running the command be sure to go:",
     Event.print ("set _NT_SYMBOL_PATH=" ++ symbol_path)]
  else tempdirs.map Event.rmtree

/-- Lines 226-285, the `if tempdirs:` branch: set `_NT_SYMBOL_PATH`, hide the
local PDBs, run the build step, rename every hidden PDB back, verify the
expected symcache files, and clean up. -/
def finishMain (env : Env) (tracename : String) (st : LoopState) : RunResult :=
  let symbol_path := String.intercalate ";" st.tempdirs
  let rn := renameLoop env st.extCalls st.local_symbol_files
  let build := buildStep env tracename rn.2.1 rn.2.2.1
  let verify := verifyLoop env st.symcache_files build.2
  { events := (st.events ++
      [Event.print ("Stripped PDBs are in " ++ symbol_path ++ ". Converting to symcache files now."),
       Event.setEnvVar symbol_path]) ++
      rn.1 ++ build.1 ++ (restoreLoop env rn.2.2.2 rn.2.1).1 ++ verify.1 ++
      cleanupEvents symbol_path st.tempdirs verify.2,
    renames := rn.2.1, rename_errors := rn.2.2.1, error := verify.2, st := st }

/-- Lines 226-290: everything after the per-line loop.  If the process already
terminated inside the loop nothing more happens; with no temp directory only
a summary line is printed; otherwise `finishMain` runs. -/
def finishRun (env : Env) (tracename : String) (st : LoopState) : RunResult :=
  if st.terminated.isSome then
    { events := st.events, renames := [], rename_errors := false, error := false, st := st }
  else if st.tempdirs.isEmpty then
    if strip_and_translate then
      if st.found_uncached then
        { events := st.events ++ [Event.print "No PDBs copied, nothing to do."],
          renames := [], rename_errors := false, error := false, st := st }
      else
        { events := st.events ++ [Event.print "No uncached PDBS found, nothing to do."],
          renames := [], rename_errors := false, error := false, st := st }
    else
      { events := st.events, renames := [], rename_errors := false, error := false, st := st }
  else finishMain env tracename st

/-- Line 101: the support files copied next to the script. -/
def thirdPartyFiles : List String := ["pdbcopy.exe", "dbghelp.dll", "symsrv.dll"]

/-- Lines 101-106: copy each missing support file; `shutil.copy2` raising is
uncaught. -/
def thirdPartyStep (env : Env) (st : LoopState) (name : String) : LoopState :=
  if st.terminated.isSome then st
  else if env.cwdExists name then st
  else
    let st := { st with events := st.events ++ [Event.copy2 name] }
    if env.copy2Fails name then crashSt st else st

/-- Lines 66-114: the argument, interpreter, environment-marker and
helper-tool prerequisite checks, each exiting with status 0 when unmet. -/
def preludeRun (env : Env) (st : LoopState) : LoopState :=
  if env.argvTail.isEmpty then
    { st with
      events := st.events ++ [Event.print ("Usage: " ++ env.argv0 ++ " trace.etl"), Event.exit 0],
      terminated := some .earlyExit }
  else if env.pyMajor = 2 && env.pyMinor < 7 then
    { st with
      events := st.events ++
        [Event.print "Your python version is too old - 2.7 or higher required.",
         Event.print ("Python version is " ++ env.pyVersionStr), Event.exit 0],
      terminated := some .earlyExit }
  else if !(strContains env.ntSymbolPath "chromium-browser-symsrv") then
    { st with
      events := st.events ++
        [Event.print "Chromium symbol server is not in _NT_SYMBOL_PATH. No symbol stripping needed.",
         Event.exit 0],
      terminated := some .earlyExit }
  else
    let st := thirdPartyFiles.foldl (thirdPartyStep env) st
    if st.terminated.isSome then st
    else if !env.pdbcopyExists then
      { st with
        events := st.events ++
          [Event.print "pdbcopy.exe not found. No symbol stripping is possible.", Event.exit 0],
        terminated := some .earlyExit }
    else if !env.retrieveExists then
      { st with
        events := st.events ++
          [Event.print "RetrieveSymbols.exe not found. No symbol retrieval is possible.", Event.exit 0],
        terminated := some .earlyExit }
    else st

/-- Lines 131-147: the banner print and the `xperf -dbgid` invocation whose
output feeds the scanner; `check_output` raising is uncaught. -/
def tracePhase (env : Env) (st : LoopState) : LoopState :=
  let tracename := env.argvTail.headD ""
  let st := { st with events := st.events ++
      [Event.print ("Pre-translating chrome symbols from stripped PDBs to avoid 10-15 minute " ++
               "translation times and to work around WPA symbol download bugs.")] }
  let command := "xperf -i \"" ++ tracename ++ "\" -tle -tti -a symcache -dbgid"
  let st := { st with events := st.events ++ [Event.print ("> " ++ command), Event.runTrace command] }
  if env.callFails st.extCalls then crashSt { st with extCalls := st.extCalls + 1 }
  else { st with extCalls := st.extCalls + 1 }

/-- The whole of `main` (lines 65-290) over an oracle environment. -/
def mainRun (env : Env) : RunResult :=
  let st := preludeRun env {}
  if st.terminated.isSome then
    { events := st.events, renames := [], rename_errors := false, error := false, st := st }
  else
    let st := tracePhase env st
    if st.terminated.isSome then
      { events := st.events, renames := [], rename_errors := false, error := false, st := st }
    else
      finishRun env (env.argvTail.headD "") (runLoop env st env.traceLines)

/-! ## Event classification helpers -/

def isPrint : Event → Bool
  | .print _ => true
  | _ => false

def isBuild : Event → Bool
  | .runBuild _ => true
  | _ => false

def isRenameFile : Event → Bool
  | .renameFile _ _ => true
  | _ => false

def isRmtree : Event → Bool
  | .rmtree _ => true
  | _ => false

/-- A rename-back (restoration) attempt: the source carries the `"x"` marker
suffix of the destination. -/
def isRestore : Event → Bool
  | .renameFile s d => s == d ++ "x"
  | _ => false

/-- Every `exit` event carries status 0. -/
def exitZeroOk : Event → Bool
  | .exit n => n == 0
  | _ => true

/-! ## Witness fixtures -/

def c7Line1 : String := "module ref x\\chrome_child.dll here"

def c7Line2 : String := "module ref x\\content.dll here"

def isValueError : ScanResult → Bool
  | .valueError _ => true
  | _ => false

/-- Does the age group parse as an integer whenever `pdb_re` matches the line? -/
def ageParses (line : String) : Bool :=
  match pdbReMatch line with
  | some (_, a, _) => (pyInt a).isSome
  | none => true

/-- A line that matches a module name and the `pdb_re` pattern but carries a
non-numeric age field. -/
def c6Line : String :=
  "\"[RSDS] PdbSig: \x7ba-b-c-d-e\x7d; Age: zz; Pdb: \\chrome.dll\""

def c6WitLine : String :=
  "\"[RSDS] PdbSig: \x7ba-b-c-d-e\x7d; Age: 51; Pdb: \\chrome.dll\""

def c6WitLine2 : String := "some text about x\\chrome.dll without a signature"

def c5Line : String :=
  "\"[RSDS] PdbSig: \x7ba-b-c-d-e\x7d; Age: 51; Pdb: x\\chrome.dll\""

def c5Rec : SymbolRecord :=
  { dllMatch := "chrome.dll", guid := "abcde", age := 51, path := "x\\chrome.dll" }

def c5Env : Env where
  argv0 := "s"
  argvTail := ["t.etl"]
  pyMajor := 3
  pyMinor := 0
  pyVersionStr := "3"
  ntSymbolPath := "chromium-browser-symsrv"
  cwdExists := fun _ => true
  copy2Fails := fun _ => false
  pdbcopyPath := "p"
  retrievePath := "r"
  pdbcopyExists := true
  retrieveExists := true
  unFastlinkExists := false
  callFails := fun _ => false
  toolOutput := fun _ => ""
  traceLines := [c5Line]
  popenLines := fun _ => []
  symcacheExists := fun _ => true
  localPdbExists := fun _ => false
  mkdtempName := fun n => "T" ++ toString n
  destExists := fun _ => true
  tempNameExists := fun _ => false
  excText := fun _ => "E"
  interrupted := false
  symcacheExistsAfter := fun _ => true

def c9Env : Env :=
  { c5Env with tempNameExists := fun _ => true }

/-! ## C3: the cache path formula -/

/-- The sixteen lowercase hexadecimal digit characters. -/
def lowercaseHexDigits : List Char := "0123456789abcdef".data

/-- The kinds of events the prelude and the per-line loop emit: prints, tool
invocations, `exit 0` and crashes only — never a build, a rename, a removal,
an environment write or a cleanup, and never a nonzero exit. -/
def loopEventOk : Event → Bool
  | .print _ => true
  | .copy2 _ => true
  | .runTrace _ => true
  | .runRetrieve _ => true
  | .runCopy _ => true
  | .runConvert _ => true
  | .exit n => n == 0
  | .crash => true
  | _ => false

/-- Events the hide loop emits: prints, removals, and forward renames onto the
`"x"`-suffixed temp name. -/
def renameEvOk : Event → Bool
  | .print _ => true
  | .removeFile _ => true
  | .renameFile s d => d == s ++ "x"
  | _ => false

/-- Events the restore loop emits. -/
def restoreEvOk : Event → Bool
  | .print _ => true
  | .renameFile _ _ => true
  | _ => false

/-- Did hiding this local PDB fail (lines 238-248)?  The first fallible call
is the `os.remove` when a file already sits at the temp name, the `os.rename`
otherwise. -/
def hideFails (env : Env) (c : Nat) (local_pdb : String) : Bool :=
  if env.tempNameExists (local_pdb ++ "x") then env.callFails c || env.callFails (c + 1)
  else env.callFails c

/-- `e2` extends `e1` with loop-phase events only. -/
def EvExt (e1 e2 : List Event) : Prop :=
  ∃ extra, e2 = e1 ++ extra ∧ extra.all loopEventOk = true

/-- A run in which hiding the single local PDB fails: oracle call 0 is the
trace command, 1 the retrieval, 2 the copy, 3 the failing `os.rename`. -/
def wEnv2 : Env :=
  { c5Env with
    symcacheExists := fun _ => false, localPdbExists := fun _ => true,
    callFails := fun n => n == 3 }

/-- A run in which the stripped destination file is missing after the copy. -/
def wEnv4 : Env :=
  { c5Env with
    symcacheExists := fun _ => false, localPdbExists := fun _ => true,
    destExists := fun _ => false }

/-- A run interrupted during the build in which every expected symcache file
nevertheless exists afterwards. -/
def cEnv8 : Env :=
  { c5Env with
    symcacheExists := fun _ => false, localPdbExists := fun _ => true,
    interrupted := true }

/-- A fully successful run with one local PDB. -/
def wEnv8 : Env :=
  { c5Env with symcacheExists := fun _ => false, localPdbExists := fun _ => true }

lemma hexDigitChar_mem (m : Nat) (h : m < 16) : hexDigitChar m ∈ lowercaseHexDigits := by
  interval_cases m <;> decide

lemma natHexLoop_mem (fuel : Nat) : ∀ n acc c, c ∈ natHexLoop fuel n acc →
    c ∈ lowercaseHexDigits ∨ c ∈ acc := by
  induction fuel with
  | zero => exact fun n acc c hc => Or.inr hc
  | succ fuel ih =>
    intro n acc c hc
    simp only [natHexLoop] at hc
    by_cases hn : n = 0
    · rw [if_pos hn] at hc; exact Or.inr hc
    · rw [if_neg hn] at hc
      rcases ih (n / 16) _ c hc with h | h
      · exact Or.inl h
      · rcases List.mem_cons.mp h with h | h
        · exact Or.inl (h ▸ hexDigitChar_mem _ (Nat.mod_lt _ (by omega)))
        · exact Or.inr h

lemma natToHex_mem (n : Nat) : ∀ c ∈ (natToHex n).data, c ∈ lowercaseHexDigits := by
  by_cases hn : n = 0
  · subst hn; decide
  · intro c hc
    rw [natToHex, if_neg hn] at hc
    rcases natHexLoop_mem (n + 1) n [] c hc with h | h
    · exact h
    · exact absurd h (List.not_mem_nil c)

lemma pyHex_ofNat (n : Nat) : pyHex (Int.ofNat n) = natToHex n := by
  rw [pyHex, if_neg (by exact not_lt.mpr (Int.ofNat_nonneg n))]
  simp

/-- C3: for any `(cacheName, guid, age)` the computed symcache path is the
pure function `<cacheRoot>\<cacheName>-<guidNoHyphens><hex(age)>v2.symcache`;
the age is rendered with lowercase hexadecimal digits only (hence no `0x`
prefix), and decimal age 51 renders as `"33"`. -/
theorem c3_cache_path_formula (cacheName guid : String) (age : Nat) :
    symcacheFile cacheName (stripHyphens guid) (Int.ofNat age) =
      "c:\\symcache\\" ++ cacheName ++ "-" ++ stripHyphens guid ++ natToHex age ++
        "v2.symcache" ∧
    (∀ c ∈ (natToHex age).data, c ∈ lowercaseHexDigits) ∧
    '-' ∉ (stripHyphens guid).data ∧
    natToHex 51 = "33" := by
  refine ⟨?_, natToHex_mem age, ?_, by decide⟩
  · rw [symcacheFile, pyHex_ofNat]
  · simp [stripHyphens, List.mem_filter]

/-! ## C7: module recognition and the chrome_child.dll alias -/

/-- The self-naming fold of lines 156-158, over an arbitrary match predicate. -/
lemma fold_keep (f : String → Bool) : ∀ (l : List String) (base : Option String),
    (∀ m ∈ l, f m = false) →
    l.foldl (fun acc d => if f d then some d else acc) base = base := by
  intro l
  induction l with
  | nil => intro base _; rfl
  | cons a l ih =>
    intro base hz
    simp only [List.foldl_cons]
    rw [if_neg (by rw [hz a (List.mem_cons_self a l)]; exact Bool.false_ne_true)]
    exact ih base (fun m hm => hz m (List.mem_cons_of_mem a hm))

lemma fold_last (f : String → Bool) (n : String) : ∀ (l : List String) (base : Option String),
    n ∈ l → f n = true → (∀ m ∈ l, f m = true → m = n) →
    l.foldl (fun acc d => if f d then some d else acc) base = some n := by
  intro l
  induction l with
  | nil => intro base h; exact absurd h (List.not_mem_nil n)
  | cons a l ih =>
    intro base hmem hf hu
    simp only [List.foldl_cons]
    by_cases ha : f a = true
    · have haa : a = n := hu a (List.mem_cons_self a l) ha
      subst haa
      rw [if_pos ha]
      by_cases hnl : a ∈ l
      · exact ih (some a) hnl hf (fun m hm hfm => hu m (List.mem_cons_of_mem a hm) hfm)
      · refine fold_keep f l (some a) (fun m hm => ?_)
        cases hfm : f m with
        | false => rfl
        | true => exact absurd ((hu m (List.mem_cons_of_mem a hm) hfm) ▸ hm) hnl
    · rw [if_neg ha]
      rcases List.mem_cons.mp hmem with rfl | hmem2
      · exact absurd hf ha
      · exact ih base hmem2 hf (fun m hm => hu m (List.mem_cons_of_mem a hm))

/-- C7: a line referencing `chrome_child.dll` (and no other recognized module
suffix) resolves to cache name `chrome.dll`; a line referencing exactly one of
the listed modules as the path suffix `\<name>` resolves to that module's own
name. -/
theorem c7_chrome_child_alias :
    (∀ line : String, strContains line "chrome_child.dll" = true →
      (dllList.all fun n => !(strContains line ("\\" ++ n))) = true →
      dllMatchOf line = some "chrome.dll") ∧
    (∀ line n, n ∈ dllList → strContains line ("\\" ++ n) = true →
      (dllList.all fun m => m == n || !(strContains line ("\\" ++ m))) = true →
      dllMatchOf line = some n) := by
  constructor
  · intro line hcc hall
    rw [List.all_eq_true] at hall
    simp only [dllMatchOf]
    rw [if_pos hcc]
    exact fold_keep _ dllList (some "chrome.dll")
      (fun m hm => by simpa using hall m hm)
  · intro line n hn hcont hall
    rw [List.all_eq_true] at hall
    simp only [dllMatchOf]
    refine fold_last _ n dllList _ hn hcont (fun m hm hfm => ?_)
    have := hall m hm
    rw [hfm] at this
    simpa using this

theorem c7_witness :
    strContains c7Line1 "chrome_child.dll" = true ∧
    dllMatchOf c7Line1 = some "chrome.dll" ∧
    strContains c7Line2 ("\\" ++ "content.dll") = true ∧
    dllMatchOf c7Line2 = some "content.dll" :=
  ⟨by decide, c7_chrome_child_alias.1 c7Line1 (by decide) (by decide), by decide,
   c7_chrome_child_alias.2 c7Line2 "content.dll" (by decide) (by decide) (by decide)⟩

/-! ## C6: scanner error behaviour -/

/-- C6 counterexample: the scanner does not tolerate every input line — on a
module-matched line whose matched age group is not numeric, `int(age)` raises
an uncaught `ValueError` (modelled by `ScanResult.valueError`), crashing the
run. -/
theorem c6_counterexample :
    scanLine c6Line = ScanResult.valueError "zz" := by decide

/-- C6 (amended): provided the age group parses as an integer on every
`pdb_re`-matched line, scanning never raises; in particular a module match
without a pattern match is silently skipped as a non-match. -/
theorem c6_amended (line : String) (h : ageParses line = true) :
    isValueError (scanLine line) = false ∧
    (pdbReMatch line = none → scanLine line = ScanResult.noMatch) := by
  unfold ageParses at h
  constructor
  · unfold scanLine
    cases hd : dllMatchOf line with
    | none => rfl
    | some dll =>
      cases hp : pdbReMatch line with
      | none => rfl
      | some t =>
        obtain ⟨g, a, p⟩ := t
        simp only [hp] at h
        dsimp only
        cases hi : pyInt a with
        | none => rw [hi] at h; simp at h
        | some age => rfl
  · intro hp
    unfold scanLine
    rw [hp]
    cases dllMatchOf line <;> rfl

theorem c6_witness :
    ageParses c6WitLine = true ∧
    isValueError (scanLine c6WitLine) = false ∧
    pdbReMatch c6WitLine2 = none ∧
    scanLine c6WitLine2 = ScanResult.noMatch :=
  ⟨by decide, (c6_amended c6WitLine (by decide)).1, by decide,
   (c6_amended c6WitLine2 (by decide)).2 (by decide)⟩

/-! ## C5: cache-hit short-circuit -/

/-- C5: a record whose symcache target already exists is dropped with no
effect at all: no event is emitted and no state field (temp directories,
symcache list, local files, counters) changes. -/
theorem c5_cache_hit_noop (env : Env) (st : LoopState) (line : String)
    (r : SymbolRecord) (hterm : st.terminated = none)
    (hscan : scanLine line = ScanResult.record r)
    (hhit : env.symcacheExists (symcacheFile r.dllMatch r.guid r.age) = true) :
    processLine env st line = st := by
  unfold processLine
  rw [hterm, hscan]
  simp [processRecord, hhit]

theorem c5_witness :
    scanLine c5Line = ScanResult.record c5Rec ∧
    c5Env.symcacheExists (symcacheFile c5Rec.dllMatch c5Rec.guid c5Rec.age) = true ∧
    processLine c5Env {} c5Line = ({} : LoopState) :=
  ⟨by decide, by decide,
   c5_cache_hit_noop c5Env {} c5Line c5Rec rfl (by decide) (by decide)⟩

/-! ## C9: hiding a local PDB deletes a pre-existing file at the temp name -/

/-- C9: when a file already exists at `local_pdb + "x"`, the guard first
deletes it (`removeFile`) and only then renames the local PDB onto that name:
whatever was stored at the temp path is destroyed. -/
theorem c9_preexisting_temp_deleted (env : Env) (evs : List Event)
    (renames : List (String × String)) (rerr : Bool) (c : Nat) (local_pdb : String)
    (hex : env.tempNameExists (local_pdb ++ "x") = true)
    (h1 : env.callFails c = false) (h2 : env.callFails (c + 1) = false) :
    renameStep env (evs, renames, rerr, c) local_pdb =
      (evs ++
        [Event.print ("Renaming " ++ local_pdb ++ " to " ++ (local_pdb ++ "x") ++
          " to stop unstripped PDBs from being used."),
         Event.removeFile (local_pdb ++ "x"),
         Event.renameFile local_pdb (local_pdb ++ "x")],
       renames ++ [(local_pdb, local_pdb ++ "x")], rerr, c + 2) := by
  simp [renameStep, hex, h1, h2]

/-! ## Event-log decomposition machinery -/

lemma evExt_refl (e : List Event) : EvExt e e := ⟨[], by simp, rfl⟩

lemma evExt_trans {a b c : List Event} (h1 : EvExt a b) (h2 : EvExt b c) : EvExt a c := by
  obtain ⟨x, hx, hxo⟩ := h1
  obtain ⟨y, hy, hyo⟩ := h2
  exact ⟨x ++ y, by simp [hx, hy], by simp [List.all_append, hxo, hyo]⟩

lemma allMono {P Q : Event → Bool} (h : ∀ e, P e = true → Q e = true) :
    ∀ evs : List Event, evs.all P = true → evs.all Q = true := by
  intro evs hP
  rw [List.all_eq_true] at hP ⊢
  exact fun e he => h e (hP e he)

lemma evExt_all {e1 e2 : List Event} (h : EvExt e1 e2)
    (h1 : e1.all loopEventOk = true) : e2.all loopEventOk = true := by
  obtain ⟨x, hx, hxo⟩ := h
  rw [hx]
  simp [List.all_append, h1, hxo]

lemma crashSt_evExt (st : LoopState) : EvExt st.events (crashSt st).events :=
  ⟨[Event.crash], rfl, rfl⟩

lemma outputPrint_evExt (env : Env) (i : Nat) (st : LoopState) :
    EvExt st.events (outputPrint env i st).events := by
  unfold outputPrint
  split
  · exact evExt_refl _
  · exact ⟨[Event.print ("  " ++ env.toolOutput i)], rfl, rfl⟩

lemma stripPhase_evExt (env : Env) (st : LoopState) (p : String) :
    EvExt st.events (stripPhase env st p).events := by
  unfold stripPhase crashSt outputPrint
  dsimp only
  repeat' split
  all_goals
    first
      | exact evExt_refl _
      | (unfold EvExt
         simp only [List.append_assoc]
         exact ⟨_, rfl, by simp [loopEventOk]⟩)

lemma processRecord_evExt (env : Env) (st : LoopState) (r : SymbolRecord) :
    EvExt st.events (processRecord env st r).events := by
  unfold processRecord
  dsimp only
  repeat' split
  all_goals
    first
      | exact evExt_refl _
      | (unfold EvExt
         simp only [List.append_assoc]
         exact ⟨_, rfl, by simp [loopEventOk]⟩)
      | (refine evExt_trans ?_ (stripPhase_evExt _ _ _)
         unfold EvExt
         simp only [List.append_assoc]
         exact ⟨_, rfl, by simp [loopEventOk]⟩)

lemma processLine_evExt (env : Env) (st : LoopState) (line : String) :
    EvExt st.events (processLine env st line).events := by
  unfold processLine
  split
  · exact evExt_refl _
  · split
    · exact evExt_refl _
    · exact crashSt_evExt st
    · exact processRecord_evExt env st _

lemma runLoop_evExt (env : Env) (lines : List String) :
    ∀ st, EvExt st.events (runLoop env st lines).events := by
  induction lines with
  | nil => intro st; exact evExt_refl _
  | cons l ls ih =>
    intro st
    have h1 : runLoop env st (l :: ls) = runLoop env (processLine env st l) ls := by
      simp [runLoop]
    rw [h1]
    exact evExt_trans (processLine_evExt env st l) (ih (processLine env st l))

lemma thirdPartyStep_evExt (env : Env) (st : LoopState) (name : String) :
    EvExt st.events (thirdPartyStep env st name).events := by
  unfold thirdPartyStep crashSt
  dsimp only
  repeat' split
  all_goals
    first
      | exact evExt_refl _
      | (unfold EvExt
         simp only [List.append_assoc]
         exact ⟨_, rfl, by simp [loopEventOk]⟩)

lemma thirdPartyFold_evExt (env : Env) (names : List String) :
    ∀ st, EvExt st.events (names.foldl (thirdPartyStep env) st).events := by
  induction names with
  | nil => intro st; exact evExt_refl _
  | cons n ns ih =>
    intro st
    rw [List.foldl_cons]
    exact evExt_trans (thirdPartyStep_evExt env st n) (ih (thirdPartyStep env st n))

lemma preludeRun_evExt (env : Env) (st : LoopState) :
    EvExt st.events (preludeRun env st).events := by
  unfold preludeRun
  dsimp only
  repeat' split
  all_goals
    first
      | exact evExt_refl _
      | exact thirdPartyFold_evExt env thirdPartyFiles st
      | (unfold EvExt
         try simp only [List.append_assoc]
         exact ⟨_, rfl, by simp [loopEventOk]⟩)
      | (refine evExt_trans (thirdPartyFold_evExt env thirdPartyFiles st) ?_
         unfold EvExt
         try simp only [List.append_assoc]
         exact ⟨_, rfl, by simp [loopEventOk]⟩)

lemma thirdPartyStep_term (env : Env) (st : LoopState) (name : String) :
    (thirdPartyStep env st name).terminated = st.terminated ∨
    (thirdPartyStep env st name).terminated = some TermKind.crashed := by
  unfold thirdPartyStep crashSt
  repeat' split
  all_goals first | exact Or.inl rfl | exact Or.inr rfl | simp

lemma thirdPartyFold_term (env : Env) (names : List String) :
    ∀ st, (names.foldl (thirdPartyStep env) st).terminated = st.terminated ∨
      (names.foldl (thirdPartyStep env) st).terminated = some TermKind.crashed := by
  induction names with
  | nil => intro st; exact Or.inl rfl
  | cons n ns ih =>
    intro st
    rw [List.foldl_cons]
    rcases ih (thirdPartyStep env st n) with h | h
    · rcases thirdPartyStep_term env st n with h2 | h2
      · exact Or.inl (h.trans h2)
      · exact Or.inr (h.trans h2)
    · exact Or.inr h

lemma preludeRun_not_exited (env : Env) (st : LoopState) (h : st.terminated = none) :
    (preludeRun env st).terminated ≠ some TermKind.exited := by
  have hFold := thirdPartyFold_term env thirdPartyFiles st
  rw [h] at hFold
  unfold preludeRun
  rcases hFold with h2 | h2 <;>
    (repeat' split) <;>
      simp_all

/-! ## Finish-phase loop lemmas -/

lemma self_ne_xx (s : String) : (s == s ++ "x" ++ "x") = false := by
  simp only [beq_eq_false_iff_ne, ne_eq]
  intro h
  have h2 := congrArg String.length h
  rw [String.length_append, String.length_append] at h2
  have h3 : "x".length = 1 := rfl
  omega

lemma renameEvOk_not_restore (e : Event) (he : renameEvOk e = true) : isRestore e = false := by
  cases e <;> try rfl
  case renameFile s d =>
    simp only [renameEvOk, beq_iff_eq] at he
    simp only [isRestore]
    rw [he]
    exact self_ne_xx s

lemma loopEventOk_not_restore (e : Event) (he : loopEventOk e = true) : isRestore e = false := by
  cases e <;> first | rfl | simp [loopEventOk] at he

lemma filter_nil_of_all {P Q : Event → Bool} (hPQ : ∀ e, P e = true → Q e = false) :
    ∀ evs : List Event, evs.all P = true → evs.filter Q = [] := by
  intro evs h
  rw [List.filter_eq_nil]
  intro e he
  rw [List.all_eq_true] at h
  simp [hPQ e (h e he)]

lemma renameStep_all (env : Env) (acc : List Event × List (String × String) × Bool × Nat)
    (p : String) (h : acc.1.all renameEvOk = true) :
    (renameStep env acc p).1.all renameEvOk = true := by
  obtain ⟨evs, rn, b, c⟩ := acc
  unfold renameStep renameFailMsg
  dsimp only
  repeat' split
  all_goals simp_all [List.all_append, renameEvOk]

lemma renameFold_all (env : Env) (pdbs : List String) :
    ∀ acc, acc.1.all renameEvOk = true →
      (pdbs.foldl (renameStep env) acc).1.all renameEvOk = true := by
  induction pdbs with
  | nil => exact fun acc h => h
  | cons p ps ih =>
    intro acc h
    rw [List.foldl_cons]
    exact ih _ (renameStep_all env acc p h)

lemma renameLoop_all (env : Env) (c0 : Nat) (pdbs : List String) :
    (renameLoop env c0 pdbs).1.all renameEvOk = true :=
  renameFold_all env pdbs ([], [], false, c0) rfl

lemma renameStep_pairs (env : Env) (acc : List Event × List (String × String) × Bool × Nat)
    (p : String) (h : ∀ q ∈ acc.2.1, q.2 = q.1 ++ "x") :
    ∀ q ∈ (renameStep env acc p).2.1, q.2 = q.1 ++ "x" := by
  obtain ⟨evs, rn, b, c⟩ := acc
  unfold renameStep
  dsimp only
  repeat' split
  all_goals intro q hq
  all_goals
    first
      | exact h q hq
      | (rcases List.mem_append.mp hq with h2 | h2
         · exact h q h2
         · rw [List.mem_singleton] at h2
           subst h2
           rfl)

lemma renameFold_pairs (env : Env) (pdbs : List String) :
    ∀ acc, (∀ q ∈ acc.2.1, q.2 = q.1 ++ "x") →
      ∀ q ∈ (pdbs.foldl (renameStep env) acc).2.1, q.2 = q.1 ++ "x" := by
  induction pdbs with
  | nil => exact fun acc h => h
  | cons p ps ih =>
    intro acc h
    rw [List.foldl_cons]
    exact ih _ (renameStep_pairs env acc p h)

lemma renameLoop_pairs (env : Env) (c0 : Nat) (pdbs : List String) :
    ∀ q ∈ (renameLoop env c0 pdbs).2.1, q.2 = q.1 ++ "x" :=
  renameFold_pairs env pdbs ([], [], false, c0) (by intro q hq; cases hq)

lemma restoreFold_filter (env : Env) :
    ∀ (renames : List (String × String)) (evs0 : List Event) (c0 : Nat),
      (∀ q ∈ renames, q.2 = q.1 ++ "x") →
      (renames.foldl (restoreStep env) (evs0, c0)).1.filter isRestore =
        evs0.filter isRestore ++ renames.map (fun q => Event.renameFile q.2 q.1) := by
  intro renames
  induction renames with
  | nil => intro evs0 c0 _; simp
  | cons q qs ih =>
    intro evs0 c0 hsh
    rw [List.foldl_cons]
    have hq : isRestore (Event.renameFile q.2 q.1) = true := by
      have h2 := hsh q (List.mem_cons_self q qs)
      simp [isRestore, h2]
    by_cases hc : env.callFails c0 = true
    · have hstep : restoreStep env (evs0, c0) q =
          (evs0 ++ [Event.renameFile q.2 q.1] ++
            [Event.print ("Hit exception while renaming " ++ q.2 ++ " back. Continuing.\n" ++
              env.excText c0)], c0 + 1) := by
        unfold restoreStep
        dsimp only
        rw [if_pos hc]
      rw [hstep, ih _ _ (fun r hr => hsh r (List.mem_cons_of_mem q hr))]
      simp [List.filter_append, List.filter_cons, hq, isRestore,
        hsh q (List.mem_cons_self q qs)]
    · have hstep : restoreStep env (evs0, c0) q =
          (evs0 ++ [Event.renameFile q.2 q.1], c0 + 1) := by
        unfold restoreStep
        dsimp only
        rw [if_neg hc]
      rw [hstep, ih _ _ (fun r hr => hsh r (List.mem_cons_of_mem q hr))]
      simp [List.filter_append, List.filter_cons, hq, isRestore,
        hsh q (List.mem_cons_self q qs)]

lemma restoreStep_all (env : Env) (acc : List Event × Nat) (q : String × String)
    (h : acc.1.all restoreEvOk = true) :
    (restoreStep env acc q).1.all restoreEvOk = true := by
  unfold restoreStep
  dsimp only
  split
  all_goals simp_all [List.all_append, restoreEvOk]

lemma restoreFold_all (env : Env) (renames : List (String × String)) :
    ∀ acc, acc.1.all restoreEvOk = true →
      (renames.foldl (restoreStep env) acc).1.all restoreEvOk = true := by
  induction renames with
  | nil => exact fun acc h => h
  | cons q qs ih =>
    intro acc h
    rw [List.foldl_cons]
    exact ih _ (restoreStep_all env acc q h)

lemma verifyFold_all (env : Env) (files : List String) :
    ∀ acc, acc.1.all isPrint = true →
      (files.foldl (verifyStep env) acc).1.all isPrint = true := by
  induction files with
  | nil => exact fun acc h => h
  | cons f fs ih =>
    intro acc h
    rw [List.foldl_cons]
    refine ih _ ?_
    unfold verifyStep
    split <;> simp_all [List.all_append, isPrint]

lemma verifyFold_flag (env : Env) (files : List String) :
    ∀ (evs0 : List Event) (e0 : Bool),
      (files.foldl (verifyStep env) (evs0, e0)).2 =
        (e0 || !(files.all fun f => env.symcacheExistsAfter f)) := by
  induction files with
  | nil => intro evs0 e0; simp
  | cons f fs ih =>
    intro evs0 e0
    rw [List.foldl_cons]
    by_cases hf : env.symcacheExistsAfter f = true
    · have hstep : verifyStep env (evs0, e0) f =
          (evs0 ++ [Event.print (f ++ " generated.")], e0) := by
        unfold verifyStep
        dsimp only
        rw [if_pos hf]
      rw [hstep, ih]
      simp [hf]
    · have hstep : verifyStep env (evs0, e0) f =
          (evs0 ++ [Event.print ("Error: " ++ f ++ " not generated.")], true) := by
        unfold verifyStep
        dsimp only
        rw [if_neg hf]
      rw [hstep, ih]
      simp only [Bool.not_eq_true] at hf
      simp [hf]

lemma buildStep_flag (env : Env) (tn : String) (renames : List (String × String))
    (rerr : Bool) : (buildStep env tn renames rerr).2 = (!rerr && env.interrupted) := by
  unfold buildStep
  repeat' split
  all_goals simp_all

lemma buildStep_all (env : Env) (tn : String) (renames : List (String × String))
    (rerr : Bool) :
    (buildStep env tn renames rerr).1.all (fun e => isPrint e || isBuild e) = true := by
  unfold buildStep
  repeat' split
  all_goals simp [isPrint, isBuild]

lemma buildStep_hasBuild (env : Env) (tn : String) (renames : List (String × String)) :
    Event.runBuild ("xperf -i \"" ++ tn ++ "\" -symbols -tle -tti -a symcache -build") ∈
      (buildStep env tn renames false).1 := by
  unfold buildStep
  rw [if_neg (by exact Bool.false_ne_true)]
  dsimp only
  split <;> simp

lemma buildStep_skip_mem (env : Env) (tn : String) (renames : List (String × String)) :
    Event.print "Skipping symbol generation due to PDB rename errors. WPA symbol loading may be slow." ∈
      (buildStep env tn renames true).1 := by
  unfold buildStep
  simp

lemma cleanup_filter_rmtree (sp : String) (td : List String) (err : Bool) :
    (cleanupEvents sp td err).filter isRmtree =
      if err then [] else td.map Event.rmtree := by
  unfold cleanupEvents
  split
  · simp_all [isRmtree]
  · rw [List.filter_eq_self.mpr]
    intro e he
    rcases List.mem_map.mp he with ⟨d, -, rfl⟩
    rfl

lemma cleanup_all (sp : String) (td : List String) (err : Bool) :
    (cleanupEvents sp td err).all (fun e => isPrint e || isRmtree e) = true := by
  unfold cleanupEvents
  split
  · simp [isPrint]
  · rw [List.all_eq_true]
    intro e he
    rcases List.mem_map.mp he with ⟨d, -, rfl⟩
    rfl

lemma cleanup_err_print (sp : String) (td : List String) :
    Event.print ("set _NT_SYMBOL_PATH=" ++ sp) ∈ cleanupEvents sp td true := by
  simp [cleanupEvents]

/-! ## Run-level decomposition -/

lemma tracePhase_evExt (env : Env) (st : LoopState) :
    EvExt st.events (tracePhase env st).events := by
  unfold tracePhase crashSt
  dsimp only
  split
  all_goals
    (unfold EvExt
     try simp only [List.append_assoc]
     exact ⟨_, rfl, by simp [loopEventOk]⟩)

lemma mainRun_cases (env : Env) :
    ((mainRun env).renames = [] ∧ (mainRun env).rename_errors = false ∧
     (mainRun env).events.all loopEventOk = true ∧
     ((mainRun env).st.terminated.isSome = true ∨ (mainRun env).st.tempdirs = [])) ∨
    (∃ lst : LoopState,
      mainRun env = finishMain env (env.argvTail.headD "") lst ∧
      lst.events.all loopEventOk = true ∧ lst.terminated = none ∧
      lst.tempdirs ≠ []) := by
  have hpok : (preludeRun env {}).events.all loopEventOk = true :=
    evExt_all (preludeRun_evExt env {}) rfl
  by_cases h1 : (preludeRun env {}).terminated.isSome = true
  · have heq : mainRun env =
        { events := (preludeRun env {}).events, renames := [], rename_errors := false,
          error := false, st := preludeRun env {} } := by
      unfold mainRun
      rw [if_pos h1]
    rw [heq]
    exact Or.inl ⟨rfl, rfl, hpok, Or.inl h1⟩
  · have htok : (tracePhase env (preludeRun env {})).events.all loopEventOk = true :=
      evExt_all (tracePhase_evExt env _) hpok
    by_cases h2 : (tracePhase env (preludeRun env {})).terminated.isSome = true
    · have heq : mainRun env =
          { events := (tracePhase env (preludeRun env {})).events, renames := [],
            rename_errors := false, error := false,
            st := tracePhase env (preludeRun env {}) } := by
        unfold mainRun
        dsimp only
        rw [if_neg h1, if_pos h2]
      rw [heq]
      exact Or.inl ⟨rfl, rfl, htok, Or.inl h2⟩
    · have heq : mainRun env =
          finishRun env (env.argvTail.headD "")
            (runLoop env (tracePhase env (preludeRun env {})) env.traceLines) := by
        unfold mainRun
        dsimp only
        rw [if_neg h1, if_neg h2]
      have hlok :
          (runLoop env (tracePhase env (preludeRun env {})) env.traceLines).events.all
            loopEventOk = true :=
        evExt_all (runLoop_evExt env env.traceLines _) htok
      by_cases h3 :
          (runLoop env (tracePhase env (preludeRun env {})) env.traceLines).terminated.isSome
            = true
      · have heq2 : mainRun env =
            { events := (runLoop env (tracePhase env (preludeRun env {})) env.traceLines).events,
              renames := [], rename_errors := false, error := false,
              st := runLoop env (tracePhase env (preludeRun env {})) env.traceLines } := by
          rw [heq]
          unfold finishRun
          rw [if_pos h3]
        rw [heq2]
        exact Or.inl ⟨rfl, rfl, hlok, Or.inl h3⟩
      · by_cases h4 :
            (runLoop env (tracePhase env (preludeRun env {})) env.traceLines).tempdirs.isEmpty
              = true
        · have htd :
              (runLoop env (tracePhase env (preludeRun env {})) env.traceLines).tempdirs = [] :=
            List.isEmpty_iff.mp h4
          by_cases h5 :
              (runLoop env (tracePhase env (preludeRun env {})) env.traceLines).found_uncached
                = true
          · have heq2 : mainRun env =
                { events :=
                    (runLoop env (tracePhase env (preludeRun env {})) env.traceLines).events ++
                      [Event.print "No PDBs copied, nothing to do."],
                  renames := [], rename_errors := false, error := false,
                  st := runLoop env (tracePhase env (preludeRun env {})) env.traceLines } := by
              rw [heq]
              unfold finishRun
              rw [if_neg h3, if_pos h4, if_pos (show strip_and_translate = true from rfl), if_pos h5]
            rw [heq2]
            refine Or.inl ⟨rfl, rfl, ?_, Or.inr htd⟩
            simp [List.all_append, hlok, loopEventOk]
          · have heq2 : mainRun env =
                { events :=
                    (runLoop env (tracePhase env (preludeRun env {})) env.traceLines).events ++
                      [Event.print "No uncached PDBS found, nothing to do."],
                  renames := [], rename_errors := false, error := false,
                  st := runLoop env (tracePhase env (preludeRun env {})) env.traceLines } := by
              rw [heq]
              unfold finishRun
              rw [if_neg h3, if_pos h4, if_pos (show strip_and_translate = true from rfl), if_neg h5]
            rw [heq2]
            refine Or.inl ⟨rfl, rfl, ?_, Or.inr htd⟩
            simp [List.all_append, hlok, loopEventOk]
        · refine Or.inr ⟨runLoop env (tracePhase env (preludeRun env {})) env.traceLines,
            ?_, hlok, ?_, ?_⟩
          · rw [heq]
            unfold finishRun
            rw [if_neg h3, if_neg h4]
          · rcases hterm :
              (runLoop env (tracePhase env (preludeRun env {})) env.traceLines).terminated with
              _ | k
            · rfl
            · rw [hterm] at h3
              simp at h3
          · intro hnil
            rw [hnil] at h4
            exact h4 rfl

/-! ## finishMain projections and event-kind monotonicity -/

lemma finishMain_st (env : Env) (tn : String) (st : LoopState) :
    (finishMain env tn st).st = st := rfl

lemma finishMain_renames (env : Env) (tn : String) (st : LoopState) :
    (finishMain env tn st).renames =
      (renameLoop env st.extCalls st.local_symbol_files).2.1 := rfl

lemma finishMain_rename_errors (env : Env) (tn : String) (st : LoopState) :
    (finishMain env tn st).rename_errors =
      (renameLoop env st.extCalls st.local_symbol_files).2.2.1 := rfl

lemma finishMain_events (env : Env) (tn : String) (st : LoopState) :
    (finishMain env tn st).events =
      (st.events ++
        [Event.print ("Stripped PDBs are in " ++ String.intercalate ";" st.tempdirs ++
           ". Converting to symcache files now."),
         Event.setEnvVar (String.intercalate ";" st.tempdirs)]) ++
      (renameLoop env st.extCalls st.local_symbol_files).1 ++
      (buildStep env tn (renameLoop env st.extCalls st.local_symbol_files).2.1
        (renameLoop env st.extCalls st.local_symbol_files).2.2.1).1 ++
      (restoreLoop env (renameLoop env st.extCalls st.local_symbol_files).2.2.2
        (renameLoop env st.extCalls st.local_symbol_files).2.1).1 ++
      (verifyLoop env st.symcache_files
        (buildStep env tn (renameLoop env st.extCalls st.local_symbol_files).2.1
          (renameLoop env st.extCalls st.local_symbol_files).2.2.1).2).1 ++
      cleanupEvents (String.intercalate ";" st.tempdirs) st.tempdirs
        (verifyLoop env st.symcache_files
          (buildStep env tn (renameLoop env st.extCalls st.local_symbol_files).2.1
            (renameLoop env st.extCalls st.local_symbol_files).2.2.1).2).2 := rfl

lemma buildStep_rerr (env : Env) (tn : String) (renames : List (String × String)) :
    buildStep env tn renames true =
      ([Event.print "Skipping symbol generation due to PDB rename errors. WPA symbol loading may be slow."],
       false) := rfl

lemma loopEventOk_exitZero (e : Event) (h : loopEventOk e = true) : exitZeroOk e = true := by
  cases e <;> simp_all [loopEventOk, exitZeroOk]

lemma renameEvOk_exitZero (e : Event) (h : renameEvOk e = true) : exitZeroOk e = true := by
  cases e <;> simp_all [renameEvOk, exitZeroOk]

lemma restoreEvOk_exitZero (e : Event) (h : restoreEvOk e = true) : exitZeroOk e = true := by
  cases e <;> simp_all [restoreEvOk, exitZeroOk]

lemma isPrint_exitZero (e : Event) (h : isPrint e = true) : exitZeroOk e = true := by
  cases e <;> simp_all [isPrint, exitZeroOk]

lemma printOrBuild_exitZero (e : Event) (h : (isPrint e || isBuild e) = true) :
    exitZeroOk e = true := by
  cases e <;> simp_all [isPrint, isBuild, exitZeroOk]

lemma printOrRmtree_exitZero (e : Event) (h : (isPrint e || isRmtree e) = true) :
    exitZeroOk e = true := by
  cases e <;> simp_all [isPrint, isRmtree, exitZeroOk]

lemma loopEventOk_noBuild (e : Event) (h : loopEventOk e = true) : (!(isBuild e)) = true := by
  cases e <;> simp_all [loopEventOk, isBuild]

lemma renameEvOk_noBuild (e : Event) (h : renameEvOk e = true) : (!(isBuild e)) = true := by
  cases e <;> simp_all [renameEvOk, isBuild]

lemma restoreEvOk_noBuild (e : Event) (h : restoreEvOk e = true) : (!(isBuild e)) = true := by
  cases e <;> simp_all [restoreEvOk, isBuild]

lemma isPrint_noBuild (e : Event) (h : isPrint e = true) : (!(isBuild e)) = true := by
  cases e <;> simp_all [isPrint, isBuild]

lemma printOrRmtree_noBuild (e : Event) (h : (isPrint e || isRmtree e) = true) :
    (!(isBuild e)) = true := by
  cases e <;> simp_all [isPrint, isRmtree, isBuild]

lemma loopEventOk_noRename (e : Event) (h : loopEventOk e = true) :
    (!(isRenameFile e)) = true := by
  cases e <;> simp_all [loopEventOk, isRenameFile]

lemma loopEventOk_not_rmtree (e : Event) (h : loopEventOk e = true) : isRmtree e = false := by
  cases e <;> simp_all [loopEventOk, isRmtree]

lemma renameEvOk_not_rmtree (e : Event) (h : renameEvOk e = true) : isRmtree e = false := by
  cases e <;> simp_all [renameEvOk, isRmtree]

lemma restoreEvOk_not_rmtree (e : Event) (h : restoreEvOk e = true) : isRmtree e = false := by
  cases e <;> simp_all [restoreEvOk, isRmtree]

lemma isPrint_not_rmtree (e : Event) (h : isPrint e = true) : isRmtree e = false := by
  cases e <;> simp_all [isPrint, isRmtree]

lemma printOrBuild_not_rmtree (e : Event) (h : (isPrint e || isBuild e) = true) :
    isRmtree e = false := by
  cases e <;> simp_all [isPrint, isBuild, isRmtree]

lemma isPrint_not_restore (e : Event) (h : isPrint e = true) : isRestore e = false := by
  cases e <;> simp_all [isPrint, isRestore]

lemma printOrBuild_not_restore (e : Event) (h : (isPrint e || isBuild e) = true) :
    isRestore e = false := by
  cases e <;> simp_all [isPrint, isBuild, isRestore]

lemma printOrRmtree_not_restore (e : Event) (h : (isPrint e || isRmtree e) = true) :
    isRestore e = false := by
  cases e <;> simp_all [isPrint, isRmtree, isRestore]

theorem c9_witness :
    c9Env.tempNameExists ("p" ++ "x") = true ∧
    renameStep c9Env ([], [], false, 0) "p" =
      ([Event.print ("Renaming " ++ "p" ++ " to " ++ ("p" ++ "x") ++
          " to stop unstripped PDBs from being used."),
        Event.removeFile ("p" ++ "x"), Event.renameFile "p" ("p" ++ "x")],
       [("p", "p" ++ "x")], false, 2) :=
  ⟨by decide,
   c9_preexisting_temp_deleted c9Env [] [] false 0 "p" (by decide) (by decide) (by decide)⟩

lemma restoreLoop_all (env : Env) (c0 : Nat) (renames : List (String × String)) :
    (restoreLoop env c0 renames).1.all restoreEvOk = true :=
  restoreFold_all env renames ([], c0) rfl

lemma restoreLoop_filter (env : Env) (c0 : Nat) (renames : List (String × String))
    (h : ∀ q ∈ renames, q.2 = q.1 ++ "x") :
    (restoreLoop env c0 renames).1.filter isRestore =
      renames.map (fun q => Event.renameFile q.2 q.1) := by
  unfold restoreLoop
  rw [restoreFold_filter env renames [] c0 h]
  rfl

lemma verifyLoop_all (env : Env) (files : List String) (e0 : Bool) :
    (verifyLoop env files e0).1.all isPrint = true :=
  verifyFold_all env files ([], e0) rfl

lemma verifyLoop_flag (env : Env) (files : List String) (e0 : Bool) :
    (verifyLoop env files e0).2 =
      (e0 || !(files.all fun f => env.symcacheExistsAfter f)) :=
  verifyFold_flag env files [] e0

/-! ## C1: restoration happens exactly once per recorded rename -/

/-- C1: over any complete run — build finished or cut short by a
`KeyboardInterrupt` — the restoration attempts (renames from the
marker-suffixed temp path back to the original path) in the event log are in
exact one-to-one, order-preserving correspondence with the recorded
`RenamedFile`s: each is attempted exactly once, every later attempt happens
regardless of earlier failures (which only add log prints), and nothing is
raised to the caller. -/
theorem c1_restoration_exactly_once (env : Env) :
    (mainRun env).events.filter isRestore =
      (mainRun env).renames.map (fun q => Event.renameFile q.2 q.1) := by
  rcases mainRun_cases env with ⟨hrn, -, hall, -⟩ | ⟨lst, heq, hok, -, -⟩
  · rw [hrn, filter_nil_of_all loopEventOk_not_restore _ hall]
    rfl
  · rw [heq, finishMain_events, finishMain_renames]
    simp only [List.filter_append]
    rw [filter_nil_of_all loopEventOk_not_restore _ hok,
      filter_nil_of_all renameEvOk_not_restore _ (renameLoop_all env _ _),
      filter_nil_of_all printOrBuild_not_restore _ (buildStep_all env _ _ _),
      filter_nil_of_all isPrint_not_restore _ (verifyLoop_all env _ _),
      filter_nil_of_all printOrRmtree_not_restore _ (cleanup_all _ _ _),
      restoreLoop_filter env _ _ (renameLoop_pairs env _ _)]
    simp [isRestore]

/-! ## C10: every deliberate exit reports status 0 -/

/-- C10: every `sys.exit` the program performs — the usage exit, the
version and prerequisite early exits, and the fatal strip abort — carries
exit status 0; no exit path of any run sets a nonzero status. -/
theorem c10_exit_status_zero (env : Env) :
    (mainRun env).events.all exitZeroOk = true := by
  rcases mainRun_cases env with ⟨-, -, hall, -⟩ | ⟨lst, heq, hok, -, -⟩
  · exact allMono loopEventOk_exitZero _ hall
  · rw [heq, finishMain_events]
    simp only [List.all_append, Bool.and_eq_true]
    refine ⟨⟨⟨⟨⟨⟨allMono loopEventOk_exitZero _ hok, rfl⟩,
      allMono renameEvOk_exitZero _ (renameLoop_all env _ _)⟩,
      allMono printOrBuild_exitZero _ (buildStep_all env _ _ _)⟩,
      allMono restoreEvOk_exitZero _ (restoreLoop_all env _ _)⟩,
      allMono isPrint_exitZero _ (verifyLoop_all env _ _)⟩,
      allMono printOrRmtree_exitZero _ (cleanup_all _ _ _)⟩

/-! ## C2: a rename failure skips the build for the whole run -/

/-- C2: if hiding any local PDB fails, the cache-build tool is never invoked
in that run and the warning is printed instead; and a failed hide leaves the
restoration list unchanged (the failed file is excluded from it). -/
theorem c2_rename_failure_skips_build (env : Env) :
    ((mainRun env).rename_errors = true →
      ((mainRun env).events.all fun e => !(isBuild e)) = true ∧
      Event.print "Skipping symbol generation due to PDB rename errors. WPA symbol loading may be slow." ∈
        (mainRun env).events) ∧
    (∀ (env2 : Env) (evs : List Event) (renames : List (String × String)) (rerr : Bool)
      (c : Nat) (local_pdb : String), hideFails env2 c local_pdb = true →
      (renameStep env2 (evs, renames, rerr, c) local_pdb).2.1 = renames) := by
  constructor
  · intro hre
    rcases mainRun_cases env with ⟨-, hre0, -, -⟩ | ⟨lst, heq, hok, -, -⟩
    · rw [hre0] at hre
      cases hre
    · rw [heq, finishMain_rename_errors] at hre
      rw [heq, finishMain_events]
      rw [hre, buildStep_rerr]
      constructor
      · simp only [List.all_append, Bool.and_eq_true]
        refine ⟨⟨⟨⟨⟨⟨allMono loopEventOk_noBuild _ hok, rfl⟩,
          allMono renameEvOk_noBuild _ (renameLoop_all env _ _)⟩, rfl⟩,
          allMono restoreEvOk_noBuild _ (restoreLoop_all env _ _)⟩,
          allMono isPrint_noBuild _ (verifyLoop_all env _ _)⟩,
          allMono printOrRmtree_noBuild _ (cleanup_all _ _ _)⟩
      · simp only [List.mem_append]
        exact Or.inl (Or.inl (Or.inl (Or.inr (List.mem_singleton_self _))))
  · intro env2 evs renames rerr c local_pdb hf
    unfold hideFails at hf
    unfold renameStep
    dsimp only
    by_cases ht : env2.tempNameExists (local_pdb ++ "x") = true
    · rw [if_pos ht] at hf ⊢
      by_cases hc : env2.callFails c = true
      · rw [if_pos hc]
      · rw [if_neg hc]
        simp only [Bool.not_eq_true] at hc
        rw [hc, Bool.false_or] at hf
        rw [if_pos hf]
    · rw [if_neg ht] at hf ⊢
      rw [if_pos hf]

theorem c2_witness :
    (mainRun wEnv2).rename_errors = true ∧
    ((mainRun wEnv2).events.all fun e => !(isBuild e)) = true ∧
    hideFails wEnv2 3 "p" = true ∧
    (renameStep wEnv2 ([], [], false, 3) "p").2.1 = [] :=
  ⟨by decide, ((c2_rename_failure_skips_build wEnv2).1 (by decide)).1, by decide,
   (c2_rename_failure_skips_build wEnv2).2 wEnv2 [] [] false 3 "p" (by decide)⟩

/-! ## C4: a strip failure aborts before any hiding or building -/

/-- C4: when the run aborts because the stripped destination file is missing
(line 220), the cache-build tool was never invoked and no local file was ever
renamed, so there is no RenamedFile to restore. -/
theorem c4_strip_abort_clean (env : Env)
    (h : (mainRun env).st.terminated = some TermKind.exited) :
    ((mainRun env).events.all fun e => !(isBuild e)) = true ∧
    ((mainRun env).events.all fun e => !(isRenameFile e)) = true ∧
    (mainRun env).renames = [] := by
  rcases mainRun_cases env with ⟨hrn, -, hall, -⟩ | ⟨lst, heq, -, hterm, -⟩
  · exact ⟨allMono loopEventOk_noBuild _ hall, allMono loopEventOk_noRename _ hall, hrn⟩
  · rw [heq, finishMain_st] at h
    rw [hterm] at h
    cases h

theorem c4_witness :
    (mainRun wEnv4).st.terminated = some TermKind.exited ∧
    ((mainRun wEnv4).events.all fun e => !(isBuild e)) = true ∧
    (mainRun wEnv4).renames = [] :=
  ⟨by decide, (c4_strip_abort_clean wEnv4 (by decide)).1,
   (c4_strip_abort_clean wEnv4 (by decide)).2.2⟩

/-! ## C8: workspace retention and deletion -/

lemma finishMain_cleanup (env : Env) (tn : String) (lst : LoopState)
    (hok : lst.events.all loopEventOk = true) (htd : lst.tempdirs ≠ []) :
    ((finishMain env tn lst).events.filter isRmtree =
        lst.tempdirs.map Event.rmtree ↔
      ((lst.symcache_files.all fun f => env.symcacheExistsAfter f) = true ∧
        (((finishMain env tn lst).events.all fun e => !(isBuild e)) = true ∨
          env.interrupted = false))) ∧
    ((lst.symcache_files.all fun f => env.symcacheExistsAfter f) = false →
      Event.print ("set _NT_SYMBOL_PATH=" ++ String.intercalate ";" lst.tempdirs) ∈
        (finishMain env tn lst).events) := by
  have hfil : (finishMain env tn lst).events.filter isRmtree =
      if (verifyLoop env lst.symcache_files
            (buildStep env tn (renameLoop env lst.extCalls lst.local_symbol_files).2.1
              (renameLoop env lst.extCalls lst.local_symbol_files).2.2.1).2).2 then []
      else lst.tempdirs.map Event.rmtree := by
    rw [finishMain_events]
    simp only [List.filter_append]
    rw [filter_nil_of_all loopEventOk_not_rmtree _ hok,
      filter_nil_of_all renameEvOk_not_rmtree _ (renameLoop_all env _ _),
      filter_nil_of_all printOrBuild_not_rmtree _ (buildStep_all env _ _ _),
      filter_nil_of_all restoreEvOk_not_rmtree _ (restoreLoop_all env _ _),
      filter_nil_of_all isPrint_not_rmtree _ (verifyLoop_all env _ _),
      cleanup_filter_rmtree]
    simp [isRmtree]
  have herr : (verifyLoop env lst.symcache_files
        (buildStep env tn (renameLoop env lst.extCalls lst.local_symbol_files).2.1
          (renameLoop env lst.extCalls lst.local_symbol_files).2.2.1).2).2 =
      ((buildStep env tn (renameLoop env lst.extCalls lst.local_symbol_files).2.1
          (renameLoop env lst.extCalls lst.local_symbol_files).2.2.1).2 ||
        !(lst.symcache_files.all fun f => env.symcacheExistsAfter f)) :=
    verifyLoop_flag env _ _
  have hb2 : (buildStep env tn (renameLoop env lst.extCalls lst.local_symbol_files).2.1
        (renameLoop env lst.extCalls lst.local_symbol_files).2.2.1).2 =
      (!(renameLoop env lst.extCalls lst.local_symbol_files).2.2.1 && env.interrupted) :=
    buildStep_flag env tn _ _
  have hNB1 : (renameLoop env lst.extCalls lst.local_symbol_files).2.2.1 = true →
      ((finishMain env tn lst).events.all fun e => !(isBuild e)) = true := by
    intro hre
    rw [finishMain_events, hre, buildStep_rerr]
    simp only [List.all_append, Bool.and_eq_true]
    exact ⟨⟨⟨⟨⟨⟨allMono loopEventOk_noBuild _ hok, rfl⟩,
      allMono renameEvOk_noBuild _ (renameLoop_all env _ _)⟩, rfl⟩,
      allMono restoreEvOk_noBuild _ (restoreLoop_all env _ _)⟩,
      allMono isPrint_noBuild _ (verifyLoop_all env _ _)⟩,
      allMono printOrRmtree_noBuild _ (cleanup_all _ _ _)⟩
  have hNB2 : (renameLoop env lst.extCalls lst.local_symbol_files).2.2.1 = false →
      ¬(((finishMain env tn lst).events.all fun e => !(isBuild e)) = true) := by
    intro hre hall
    have hmem : Event.runBuild ("xperf -i \"" ++ tn ++ "\" -symbols -tle -tti -a symcache -build") ∈
        (finishMain env tn lst).events := by
      rw [finishMain_events, hre]
      simp only [List.mem_append]
      exact Or.inl (Or.inl (Or.inl (Or.inr (buildStep_hasBuild env tn _))))
    rw [List.all_eq_true] at hall
    have hh := hall _ hmem
    simp [isBuild] at hh
  constructor
  · constructor
    · intro hdel
      rw [hfil] at hdel
      have herr0 : (verifyLoop env lst.symcache_files
          (buildStep env tn (renameLoop env lst.extCalls lst.local_symbol_files).2.1
            (renameLoop env lst.extCalls lst.local_symbol_files).2.2.1).2).2 = false := by
        by_contra hET
        rw [Bool.not_eq_false] at hET
        rw [hET, if_pos rfl] at hdel
        exact htd (List.map_eq_nil_iff.mp hdel.symm)
      rw [herr] at herr0
      have hor2 := Bool.or_eq_false_iff.mp herr0
      have hex : (lst.symcache_files.all fun f => env.symcacheExistsAfter f) = true := by
        simpa using hor2.2
      refine ⟨hex, ?_⟩
      have hb0 := hor2.1
      rw [hb2] at hb0
      rcases Bool.and_eq_false_iff.mp hb0 with hre | hint
      · exact Or.inl (hNB1 (by simpa using hre))
      · exact Or.inr hint
    · rintro ⟨hex, hor⟩
      have hre_or : (renameLoop env lst.extCalls lst.local_symbol_files).2.2.1 = true ∨
          env.interrupted = false := by
        rcases hor with hnb | hint
        · left
          by_contra hre
          rw [Bool.not_eq_true] at hre
          exact hNB2 hre hnb
        · exact Or.inr hint
      have hb0 : (buildStep env tn (renameLoop env lst.extCalls lst.local_symbol_files).2.1
          (renameLoop env lst.extCalls lst.local_symbol_files).2.2.1).2 = false := by
        rw [hb2]
        rcases hre_or with h | h
        · rw [h]
          rfl
        · rw [h]
          simp
      rw [hfil, herr, hb0, hex]
      rfl
  · intro hexF
    have herr1 : (verifyLoop env lst.symcache_files
        (buildStep env tn (renameLoop env lst.extCalls lst.local_symbol_files).2.1
          (renameLoop env lst.extCalls lst.local_symbol_files).2.2.1).2).2 = true := by
      rw [herr, hexF]
      simp
    rw [finishMain_events, herr1]
    simp only [List.mem_append]
    exact Or.inr (cleanup_err_print _ _)

/-- C8 counterexample: in a run interrupted during the build, the temp
workspaces are retained even though every expected symcache file exists
afterwards — verification success alone does not imply deletion. -/
theorem c8_counterexample :
    (mainRun cEnv8).st.tempdirs ≠ [] ∧
    ((mainRun cEnv8).st.symcache_files.all fun f => cEnv8.symcacheExistsAfter f) = true ∧
    (mainRun cEnv8).events.filter isRmtree = [] := by decide

/-- C8 (amended): after a run that reached the build phase, temp workspaces
are deleted if and only if every targeted symcache file exists afterwards AND
the run was not cut short by an interrupt while the build ran (equivalently:
the build was skipped, or no interrupt occurred); whenever verification finds
a missing file, the `_NT_SYMBOL_PATH` value needed for a manual retry is
printed. -/
theorem c8_workspace_cleanup (env : Env)
    (h1 : (mainRun env).st.terminated = none)
    (h2 : (mainRun env).st.tempdirs ≠ []) :
    ((mainRun env).events.filter isRmtree =
        (mainRun env).st.tempdirs.map Event.rmtree ↔
      (((mainRun env).st.symcache_files.all fun f => env.symcacheExistsAfter f) = true ∧
        (((mainRun env).events.all fun e => !(isBuild e)) = true ∨
          env.interrupted = false))) ∧
    (((mainRun env).st.symcache_files.all fun f => env.symcacheExistsAfter f) = false →
      Event.print ("set _NT_SYMBOL_PATH=" ++
          String.intercalate ";" (mainRun env).st.tempdirs) ∈
        (mainRun env).events) := by
  rcases mainRun_cases env with ⟨-, -, -, hd⟩ | ⟨lst, heq, hok, hterm, htd⟩
  · rcases hd with hd | hd
    · rw [h1] at hd
      simp at hd
    · exact absurd hd h2
  · rw [heq, finishMain_st]
    exact finishMain_cleanup env _ lst hok htd

theorem c8_witness :
    (mainRun wEnv8).st.terminated = none ∧
    (mainRun wEnv8).events.filter isRmtree = (mainRun wEnv8).st.tempdirs.map Event.rmtree :=
  ⟨by decide,
   ((c8_workspace_cleanup wEnv8 (by decide) (by decide)).1).mpr
     ⟨by decide, Or.inr (by decide)⟩⟩

end StripChromeSymbols
